import Mathlib

/-!
Verification development for the nao317/scraper repository.

The repository scrapes news articles, runs a per-sentence sentiment analysis
over the article body, batches the pipeline over a CSV manifest, and renders a
per-day sentiment timeline.  This file gives a shallow embedding of the parts
of `main.py`, `scraper_template.py` and `date_scraper.py` that the verified
properties are about, and proves or refutes those properties.

Modelling conventions:
- Python `float` values are idealised as `ℚ` (exact rationals).
- The external BERT classifier (an out-of-repository collaborator) is a
  parameter `classify : String → Option (ℚ × ℚ × ℚ)` returning the probability
  triple produced by `softmax`; `none` models the classifier raising an
  exception for a sentence (the `except` branch of `get_sentiment_score`).
- HTML documents are modelled as explicit trees (`HNode`/`HForest`); the
  BeautifulSoup text-extraction primitives used by the code are embedded as
  recursive functions over those trees.
- Python string primitives (`str.strip`, `str.split`, `in`, `startswith`)
  are embedded as executable functions over `List Char`.
-/

namespace Scraper

/-! ## Python string primitives -/

/-- Whitespace as stripped by Python `str.strip()` (ASCII whitespace plus the
ideographic space U+3000; the further exotic Unicode whitespace characters do
not occur in the strings handled here). -/
def isPySpace (c : Char) : Bool := c.isWhitespace || c = '　'

def pyStripList (l : List Char) : List Char :=
  ((l.dropWhile isPySpace).reverse.dropWhile isPySpace).reverse

/-- Python `s.strip()`. -/
def pyStrip (s : String) : String := ⟨pyStripList s.data⟩

/-- Python `s.split(sep)` for a one-character separator: splits at every
occurrence of `sep`, keeping empty segments. -/
def splitCharList (sep : Char) : List Char → List (List Char)
  | [] => [[]]
  | c :: cs =>
    if c = sep then [] :: splitCharList sep cs
    else
      match splitCharList sep cs with
      | [] => [[c]]
      | g :: gs => (c :: g) :: gs

def pySplit (sep : Char) (s : String) : List String :=
  (splitCharList sep s.data).map (fun l => ⟨l⟩)

/-- Python `c in s` for a single character. -/
def strContainsChar (s : String) (c : Char) : Bool := s.data.contains c

/-- Boolean infix test on character lists (Python `needle in hay`). -/
def listInfixB (needle : List Char) : List Char → Bool
  | [] => needle.isEmpty
  | c :: t => needle.isPrefixOf (c :: t) || listInfixB needle t

/-- Python `needle in hay` on strings. -/
def strContains (hay needle : String) : Bool := listInfixB needle.data hay.data

/-- Python `s.startswith(p)`. -/
def strStartsWith (s p : String) : Bool := p.data.isPrefixOf s.data

/-! ## Sentiment analysis (`main.py`, lines 63–162)

`get_sentiment_score` and `analyze_article_sentiment` are embedded for the
case `SENTIMENT_ANALYSIS_AVAILABLE = True` (the claims all presuppose the
classifier collaborator is present). -/

/-- The sentiment record attached to an article by `analyze_article_sentiment`.
The Python code stores a dict whose keys differ between the available and the
unavailable case; this is modelled as a two-constructor inductive.  Counts are
`ℤ` because the Python code computes `neutral_count` by subtraction. -/
inductive Sentiment where
  | unavailable (message : String)
  | available (average_score : ℚ) (overall_sentiment : String)
      (positive_count negative_count neutral_count total_sentences : ℤ)
deriving DecidableEq

/-- `main.py` line 75: `float(prob[2] - prob[1])`, with the comment
`# Positive - Negative`.  On classifier failure the `except` branch
(lines 76–78) returns `0.0`. -/
def get_sentiment_score (classify : String → Option (ℚ × ℚ × ℚ)) (text : String) : ℚ :=
  match classify text with
  | none => 0
  | some (_, p1, p2) => p2 - p1

/-- `main.py` line 113: `[s.strip() for s in text_content.split('。') if s.strip()]`. -/
def splitSentences (t : String) : List String :=
  ((pySplit '。' t).map pyStrip).filter (fun s => s ≠ "")

/-- `main.py` lines 126–127: the sentences that pass the length filter
`len(sentence) > 5` (strictly more than 5 characters). -/
def longSentences (t : String) : List String :=
  (splitSentences t).filter (fun s => 5 < s.length)

/-- `main.py` lines 125–129: the list of per-sentence scores handed to
aggregation, in sentence order. -/
def sentScores (classify : String → Option (ℚ × ℚ × ℚ)) (t : String) : List ℚ :=
  (longSentences t).map (get_sentiment_score classify)

/-- `sum(scores) / len(scores)`. -/
def ratMean (l : List ℚ) : ℚ := l.sum / (l.length : ℚ)

/-- `main.py` line 133: `sum(1 for s in scores if s > 0.1)`. -/
def positiveCount (scores : List ℚ) : ℤ :=
  ((scores.filter (fun s => (1 : ℚ)/10 < s)).length : ℤ)

/-- `main.py` line 134: `sum(1 for s in scores if s < -0.1)`. -/
def negativeCount (scores : List ℚ) : ℤ :=
  ((scores.filter (fun s => s < -((1 : ℚ)/10))).length : ℤ)

/-- Round half to even, the rounding mode of Python `round`, idealised over
exact rationals. -/
def roundHalfEven (x : ℚ) : ℤ :=
  if x - ⌊x⌋ < 1/2 then ⌊x⌋
  else if 1/2 < x - ⌊x⌋ then ⌊x⌋ + 1
  else if ⌊x⌋ % 2 = 0 then ⌊x⌋ else ⌊x⌋ + 1

/-- Python `round(x, 4)` (`main.py` line 147). -/
def round4 (x : ℚ) : ℚ := (roundHalfEven (x * 10000) : ℚ) / 10000

/-- `main.py` lines 138–143: the article-level label from the (unrounded)
average score. -/
def overallLabel (average_score : ℚ) : String :=
  if (1 : ℚ)/10 < average_score then "ポジティブ"
  else if average_score < -((1 : ℚ)/10) then "ネガティブ"
  else "中立"

/-- `main.py` lines 105–160: the aggregation stage of
`analyze_article_sentiment`, operating on the plain text obtained after the
HTML branch. -/
def analyze_text (classify : String → Option (ℚ × ℚ × ℚ)) (text_content : String) :
    Sentiment :=
  if pyStrip text_content = "" then .unavailable "分析可能なテキストが見つかりません"
  else if splitSentences text_content = [] then .unavailable "文に分割できませんでした"
  else if sentScores classify text_content = [] then
    .unavailable "分析できる文が見つかりませんでした"
  else
    let scores := sentScores classify text_content
    let average_score := ratMean scores
    .available (round4 average_score) (overallLabel average_score)
      (positiveCount scores) (negativeCount scores)
      ((scores.length : ℤ) - positiveCount scores - negativeCount scores)
      (scores.length : ℤ)

def contentFailMsg1 : String := "本文取得に失敗しました"

def contentFailMsg2 : String := "本文を取得できませんでした"

/-- `main.py` lines 80–162: `analyze_article_sentiment`, restricted to the
article's content (the article dict's other fields are only used for log
output).  `htmlExtract` is the BeautifulSoup-based `extract_text_from_html`
helper, taken as a parameter because parsing arbitrary HTML strings is a
property of the external parser; every claim proved below holds for every
value of this parameter, and concrete instantiations use plain-text content
that skips the HTML branch. -/
def analyze_article_sentiment (htmlExtract : String → String)
    (classify : String → Option (ℚ × ℚ × ℚ)) (content : String) : Sentiment :=
  if content = "" ∨ content = contentFailMsg1 ∨ content = contentFailMsg2 then
    .unavailable "本文が取得できていないため分析できません"
  else
    analyze_text classify
      (if strContainsChar content '<' && strContainsChar content '>' then
        htmlExtract content
      else content)

/-! ## HTML trees and content extraction (`main.py` lines 198–215,
`scraper_template.py` lines 15–43) -/

/- A parsed HTML node: an element with a tag and children, or a text node.
HForest is the list of children (a separate mutual type so that all
functions and proofs are by plain mutual structural recursion). -/
mutual
inductive HNode where
  | elem (tag : String) (children : HForest)
  | txt (s : String)
deriving DecidableEq
inductive HForest where
  | nil
  | cons (head : HNode) (tail : HForest)
deriving DecidableEq
end

/-- The tag names decomposed by the generic path before text extraction
(`main.py` line 210). -/
def bannedTags : List String := ["script", "style", "nav", "header", "footer", "aside"]

/- The text segments of a subtree in document order (what BeautifulSoup
get_text concatenates). -/
mutual
def nodeSegs : HNode → List String
  | .txt s => [s]
  | .elem _ cs => forestSegs cs
def forestSegs : HForest → List String
  | .nil => []
  | .cons n t => nodeSegs n ++ forestSegs t
end

/-- BeautifulSoup `el.get_text(strip=True)`: each text segment stripped, then
concatenated. -/
def getTextStrip (n : HNode) : String := String.join ((nodeSegs n).map pyStrip)

/- main.py lines 210-211: every descendant element with a banned tag is
decomposed (removed, subtree and all) before get_text.  find_all only
searches descendants, so the container node itself is kept. -/
mutual
def pruneNode : HNode → HNode
  | .txt s => .txt s
  | .elem t cs => .elem t (pruneForest cs)
def pruneForest : HForest → HForest
  | .nil => .nil
  | .cons (.txt s) rest => .cons (.txt s) (pruneForest rest)
  | .cons (.elem t cs) rest =>
    if t ∈ bannedTags then pruneForest rest
    else .cons (.elem t (pruneForest cs)) (pruneForest rest)
end

/-- The text segments of a forest that lie outside every banned-tag subtree
(the property the spec asks pruning to achieve). -/
def forestSegsAvoiding : HForest → List String
  | .nil => []
  | .cons (.txt s) rest => s :: forestSegsAvoiding rest
  | .cons (.elem t cs) rest =>
    (if t ∈ bannedTags then [] else forestSegsAvoiding cs) ++ forestSegsAvoiding rest

/-- The text the generic selector path keeps for one matched candidate
container: prune banned subtrees, then `get_text(strip=True)`
(`main.py` lines 209–213). -/
def candText (el : HNode) : String := getTextStrip (pruneNode el)

/-- The loop of `main.py` lines 205–215: `content` starts at the sentinel; each
matched selector overwrites it with that candidate's pruned text; the loop
breaks at the first candidate whose text exceeds 100 characters.  `cands` is
the list of `soup.select_one(selector)` results in selector order (`none` =
selector matched nothing). -/
def contentChainAux : List (Option HNode) → String → String
  | [], acc => acc
  | none :: rest, acc => contentChainAux rest acc
  | some el :: rest, _ =>
    let c := candText el
    if 100 < c.length then c else contentChainAux rest c

def extractContentChain (cands : List (Option HNode)) : String :=
  contentChainAux cands contentFailMsg2

/-- The pruned texts of the matched candidates, in selector order. -/
def chainTexts (cands : List (Option HNode)) : List String :=
  cands.filterMap (fun oc => oc.map candText)

/-- Declarative description of the fallback chain actually implemented: the
first matched candidate text longer than 100 characters if one exists,
otherwise the text of the last matched candidate (which may be empty),
otherwise the sentinel. -/
def chainDeclarative (cands : List (Option HNode)) : String :=
  match (chainTexts cands).find? (fun t => 100 < t.length) with
  | some t => t
  | none => (chainTexts cands).getLastD contentFailMsg2

/-- All descendant `p` elements of a forest in document order
(BeautifulSoup `find_all("p")`). -/
def forestPs : HForest → List HNode
  | .nil => []
  | .cons (.txt _) rest => forestPs rest
  | .cons (.elem t cs) rest =>
    (if t = "p" then [HNode.elem t cs] else []) ++ forestPs cs ++ forestPs rest

def findAllP : HNode → List HNode
  | .txt _ => []
  | .elem _ cs => forestPs cs

/-- `scraper_template.py` lines 37–43: the Bloomberg `parse_article` body text
for a chosen container — the non-empty `get_text(strip=True)` of every
descendant `p`, joined with newlines.  No decomposition of
script/style/nav/header/footer/aside subtrees happens on this path. -/
def parse_article_content (container : HNode) : String :=
  String.intercalate "\n" (((findAllP container).map getTextStrip).filter (fun t => t ≠ ""))

/-! ## Batch processing (`main.py` lines 275–351, `process_csv_articles`) -/

/-- The article dict produced by `scrape_single_article`. -/
structure Article where
  title : String
  content : String
  url : String
  source : String
  date : String
  author : String
deriving DecidableEq

/-- One row of the input CSV manifest (columns `date` and `bloomberg_url`). -/
structure ManifestRow where
  date : String
  bloomberg_url : String
deriving DecidableEq

/-- One row of the result DataFrame (`main.py` lines 312–322).  The `date`
field keeps the manifest's date string (the code parses it with
`pd.to_datetime`, an external-library step that does not affect the ordering
property). -/
structure ResultRow where
  date : String
  url : String
  title : String
  sentiment_score : ℚ
  overall_sentiment : String
  positive_count : ℤ
  negative_count : ℤ
  neutral_count : ℤ
  total_sentences : ℤ
deriving DecidableEq

/-- The per-row body of the loop in `process_csv_articles` (lines 301–343),
with `SENTIMENT_ANALYSIS_AVAILABLE = True`: `none` means the row contributes
nothing to the result set (scrape failure or scrape exception, sentinel
content, or unavailable sentiment — all logged and skipped). -/
def processRow (scrape : String → Option Article)
    (classify : String → Option (ℚ × ℚ × ℚ)) (htmlExtract : String → String)
    (row : ManifestRow) : Option ResultRow :=
  match scrape row.bloomberg_url with
  | none => none
  | some article =>
    if article.content = contentFailMsg2 then none
    else
      match analyze_article_sentiment htmlExtract classify article.content with
      | .unavailable _ => none
      | .available avg lbl p n u tot =>
        some ⟨row.date, row.bloomberg_url, article.title, avg, lbl, p, n, u, tot⟩

/-- The manifest loop of `process_csv_articles`: rows processed strictly in
file order, each successful row appended to `results` (the `time.sleep(2)`
pacing between rows has no effect on the result set). -/
def process_csv_articles (scrape : String → Option Article)
    (classify : String → Option (ℚ × ℚ × ℚ)) (htmlExtract : String → String) :
    List ManifestRow → List ResultRow
  | [] => []
  | row :: rest =>
    match processRow scrape classify htmlExtract row with
    | none => process_csv_articles scrape classify htmlExtract rest
    | some r => r :: process_csv_articles scrape classify htmlExtract rest

/-! ## Timeline rolling average (`main.py` lines 406–411,
`create_sentiment_timeline_chart`) -/

/-- The projection of one result row used by the timeline chart: its date
(as an ordinal, since the code parses dates with `pd.to_datetime` before
sorting) and its article-level sentiment score. -/
structure TRow where
  date : ℕ
  score : ℚ
deriving DecidableEq

/-- `df.sort_values('date')`.  (pandas leaves the relative order of equal
dates unspecified; a stable sort is one admissible refinement, and no theorem
below depends on the tie order.) -/
def sortByDate (rows : List TRow) : List TRow :=
  List.insertionSort (fun a b => a.date ≤ b.date) rows

/-- pandas `series.rolling(window=w, center=True).mean()` with the default
`min_periods` (= `w`): position `i` carries the mean of the full window of `w`
values centred at `i` (for even `w`, the window `[i, i + w/2]` extended
`w/2 - 1` to the left, as pandas places even windows), and positions without a
full window carry no value. -/
def rollingCenteredMean (w : ℕ) (xs : List ℚ) : List (Option ℚ) :=
  (List.range xs.length).map fun i =>
    if w ≤ i + w / 2 + 1 ∧ i + w / 2 < xs.length then
      some (((xs.drop (i + w / 2 + 1 - w)).take w).sum / (w : ℚ))
    else none

/-- `main.py` lines 406–409: the moving-average series the chart draws.
`window_size = min(5, len(df_sorted))` counts result **rows** (articles), and
the rolling mean runs over the per-article `sentiment_score` column of the
date-sorted DataFrame; when `window_size < 2` no series is computed at all
(modelled as `[]`). -/
def create_sentiment_ma (rows : List TRow) : List (Option ℚ) :=
  let sorted := sortByDate rows
  let w := min 5 sorted.length
  if 2 ≤ w then rollingCenteredMean w (sorted.map TRow.score) else []

/-- The distinct dates of the rows, ascending. -/
def dailyDates (rows : List TRow) : List ℕ :=
  ((sortByDate rows).map TRow.date).dedup

/-- The per-day mean-score series, ordered by date. -/
def dailyMeanSeries (rows : List TRow) : List ℚ :=
  (dailyDates rows).map (fun d => ratMean ((rows.filter (fun r => r.date = d)).map TRow.score))

/-- The rolling average as the spec describes it (spec §4.6 and §8): a centred
rolling mean over the per-day mean-score series with window size
`min(5, number of distinct days)`.  Stated from the spec's words for
comparison with `create_sentiment_ma`, which is what the code computes. -/
def spec_daily_rolling_ma (rows : List TRow) : List (Option ℚ) :=
  rollingCenteredMean (min 5 (dailyMeanSeries rows).length) (dailyMeanSeries rows)

/-! ## Bloomberg link collection (`date_scraper.py` lines 7–58,
`get_bloomberg_articles_by_date`) -/

def bloombergBase : String := "https://www.bloomberg.co.jp"

def newsPathMarker : String := "/news/articles/"

def isLeapYear (y : ℕ) : Bool := (y % 4 = 0 && y % 100 ≠ 0) || y % 400 = 0

def daysInMonth (y m : ℕ) : ℕ :=
  if m = 2 then (if isLeapYear y then 29 else 28)
  else if m ∈ [4, 6, 9, 11] then 30 else 31

def allDigits (l : List Char) : Bool := l.all (fun c => c.isDigit)

def digitsVal (l : List Char) : ℕ :=
  l.foldl (fun acc c => acc * 10 + (c.toNat - 48)) 0

/-- `datetime.strptime(date_str, "%Y-%m-%d")`: `%Y` matches exactly four
digits, `%m` and `%d` match one or two digits, and the day is validated
against the calendar.  (Years below 1000 are excluded from the model: for
them the zero-padding of `strftime('%Y')` is platform-dependent.) -/
def parseYMD (s : String) : Option (ℕ × ℕ × ℕ) :=
  match splitCharList '-' s.data with
  | [y, m, d] =>
    if allDigits y && allDigits m && allDigits d
        && y.length = 4 && (m.length = 1 || m.length = 2)
        && (d.length = 1 || d.length = 2) then
      let yn := digitsVal y
      let mn := digitsVal m
      let dn := digitsVal d
      if 1000 ≤ yn && 1 ≤ mn && mn ≤ 12 && 1 ≤ dn && dn ≤ daysInMonth yn mn then
        some (yn, mn, dn)
      else none
    else none
  | _ => none

def pad2 (n : ℕ) : String := if n < 10 then "0" ++ toString n else toString n

/-- `date_obj.strftime("%Y-%m-%d")`: the zero-padded canonical form. -/
def formatYMD : ℕ × ℕ × ℕ → String
  | (y, m, d) => toString y ++ "-" ++ pad2 m ++ "-" ++ pad2 d

/-- `date_scraper.py` line 43: the filter on candidate hrefs. -/
def articleLinkMatches (search_date href : String) : Bool :=
  strContains href newsPathMarker && strContains href search_date

/-- `date_scraper.py` lines 39–52: scan the anchor hrefs in document order;
for each match, prepend the Bloomberg host to hrefs that start with `/`
(other hrefs are taken verbatim) and append to the result unless already
present. -/
def collect_links (search_date : String) : List String → List String → List String
  | [], acc => acc
  | h :: rest, acc =>
    if articleLinkMatches search_date h then
      let full := if strStartsWith h "/" then bloombergBase ++ h else h
      if full ∈ acc then collect_links search_date rest acc
      else collect_links search_date rest (acc ++ [full])
    else collect_links search_date rest acc

/-- `date_scraper.py` lines 7–58.  `fetched` is the list of `href` attributes
of the homepage's anchor tags in document order, or `none` when the fetch
raises; any failure (unparseable date, fetch error) lands in the `except`
branch, which returns the empty list. -/
def get_bloomberg_articles_by_date (fetched : Option (List String)) (date_str : String) :
    List String :=
  match parseYMD date_str with
  | none => []
  | some ymd =>
    match fetched with
    | none => []
    | some hrefs => collect_links (formatYMD ymd) hrefs []

/-! ## Helper lemmas -/

theorem positiveCount_nil : positiveCount [] = 0 := rfl

theorem negativeCount_nil : negativeCount [] = 0 := rfl

theorem positiveCount_cons (a : ℚ) (l : List ℚ) :
    positiveCount (a :: l) = (if (1 : ℚ)/10 < a then 1 else 0) + positiveCount l := by
  simp only [positiveCount, List.filter_cons, decide_eq_true_eq]
  by_cases h : (1 : ℚ)/10 < a
  · rw [if_pos h, if_pos h, List.length_cons]; push_cast; ring
  · rw [if_neg h, if_neg h]; ring

theorem negativeCount_cons (a : ℚ) (l : List ℚ) :
    negativeCount (a :: l) = (if a < -((1 : ℚ)/10) then 1 else 0) + negativeCount l := by
  simp only [negativeCount, List.filter_cons, decide_eq_true_eq]
  by_cases h : a < -((1 : ℚ)/10)
  · rw [if_pos h, if_pos h, List.length_cons]; push_cast; ring
  · rw [if_neg h, if_neg h]; ring

theorem positiveCount_nonneg (l : List ℚ) : 0 ≤ positiveCount l := by
  simp [positiveCount]

theorem negativeCount_nonneg (l : List ℚ) : 0 ≤ negativeCount l := by
  simp [negativeCount]

/-- A score cannot be in the positive and the negative bucket at once, so the
two bucket counts sum to at most the number of scores. -/
theorem posNeg_le_length (l : List ℚ) :
    positiveCount l + negativeCount l ≤ (l.length : ℤ) := by
  induction l with
  | nil => simp [positiveCount, negativeCount]
  | cons a t ih =>
    rw [positiveCount_cons, negativeCount_cons, List.length_cons]
    push_cast
    by_cases h1 : (1 : ℚ)/10 < a <;> by_cases h2 : a < -((1 : ℚ)/10)
    · exact absurd h2 (by linarith)
    · rw [if_pos h1, if_neg h2]; linarith
    · rw [if_neg h1, if_pos h2]; linarith
    · rw [if_neg h1, if_neg h2]; linarith

theorem roundHalfEven_bounds (x : ℚ) :
    ⌊x⌋ ≤ roundHalfEven x ∧ roundHalfEven x ≤ ⌊x⌋ + 1 := by
  unfold roundHalfEven
  split_ifs <;> omega

theorem roundHalfEven_mono {x y : ℚ} (h : x ≤ y) :
    roundHalfEven x ≤ roundHalfEven y := by
  rcases lt_or_eq_of_le (Int.floor_le_floor h) with hf | hf
  · have h1 := roundHalfEven_bounds x
    have h2 := roundHalfEven_bounds y
    omega
  · unfold roundHalfEven
    rw [hf]
    split_ifs <;> first
      | omega
      | linarith

theorem round4_mono {x y : ℚ} (h : x ≤ y) : round4 x ≤ round4 y := by
  unfold round4
  have hm : roundHalfEven (x * 10000) ≤ roundHalfEven (y * 10000) :=
    roundHalfEven_mono (by linarith)
  have hm' : ((roundHalfEven (x * 10000) : ℤ) : ℚ) ≤ (roundHalfEven (y * 10000) : ℚ) := by
    exact_mod_cast hm
  linarith

theorem round4_tenth : round4 ((1 : ℚ)/10) = (1 : ℚ)/10 := by
  unfold round4 roundHalfEven
  norm_num

theorem round4_neg_tenth : round4 (-((1 : ℚ)/10)) = -((1 : ℚ)/10) := by
  unfold round4 roundHalfEven
  norm_num

theorem round4_zero : round4 0 = 0 := by
  unfold round4 roundHalfEven
  norm_num

/-- Inversion for the `available` result of the aggregation stage: the fields
of the record are exactly the aggregates of the score list. -/
theorem analyze_text_available_inv (classify : String → Option (ℚ × ℚ × ℚ))
    (t : String) (avg : ℚ) (lbl : String) (p n u tot : ℤ)
    (h : analyze_text classify t = .available avg lbl p n u tot) :
    sentScores classify t ≠ [] ∧
    avg = round4 (ratMean (sentScores classify t)) ∧
    lbl = overallLabel (ratMean (sentScores classify t)) ∧
    p = positiveCount (sentScores classify t) ∧
    n = negativeCount (sentScores classify t) ∧
    u = ((sentScores classify t).length : ℤ) - p - n ∧
    tot = ((sentScores classify t).length : ℤ) := by
  simp only [analyze_text] at h
  split_ifs at h with h1 h2 h3
  all_goals first
    | exact Sentiment.noConfusion h
    | (injection h with e1 e2 e3 e4 e5 e6
       exact ⟨by assumption, e1.symm, e2.symm, e3.symm, e4.symm, by omega, e6.symm⟩)

/-- An `available` record from `analyze_article_sentiment` always comes from
the aggregation stage. -/
theorem analyze_article_available_inv (htmlExtract : String → String)
    (classify : String → Option (ℚ × ℚ × ℚ)) (content : String)
    (avg : ℚ) (lbl : String) (p n u tot : ℤ)
    (h : analyze_article_sentiment htmlExtract classify content =
      .available avg lbl p n u tot) :
    ∃ t, analyze_text classify t = .available avg lbl p n u tot := by
  unfold analyze_article_sentiment at h
  split_ifs at h with h1 h2
  all_goals first
    | exact Sentiment.noConfusion h
    | exact ⟨_, h⟩

/-- Evaluation form of the aggregation stage once all three precondition
checks pass. -/
theorem analyze_text_eval (classify : String → Option (ℚ × ℚ × ℚ)) (t : String)
    (hstrip : pyStrip t ≠ "") (hsplit : splitSentences t ≠ [])
    (hscored : sentScores classify t ≠ []) :
    analyze_text classify t =
      .available (round4 (ratMean (sentScores classify t)))
        (overallLabel (ratMean (sentScores classify t)))
        (positiveCount (sentScores classify t)) (negativeCount (sentScores classify t))
        (((sentScores classify t).length : ℤ) - positiveCount (sentScores classify t)
          - negativeCount (sentScores classify t))
        ((sentScores classify t).length : ℤ) := by
  simp only [analyze_text]
  rw [if_neg hstrip, if_neg hsplit, if_neg hscored]

/-- For plain-text content (no angle brackets) that is neither empty nor a
sentinel, `analyze_article_sentiment` is the aggregation stage on the content
itself. -/
theorem analyze_article_plain (htmlExtract : String → String)
    (classify : String → Option (ℚ × ℚ × ℚ)) (content : String)
    (hok : ¬ (content = "" ∨ content = contentFailMsg1 ∨ content = contentFailMsg2))
    (hhtml : (strContainsChar content '<' && strContainsChar content '>') = false) :
    analyze_article_sentiment htmlExtract classify content = analyze_text classify content := by
  unfold analyze_article_sentiment
  rw [if_neg hok, hhtml]
  simp

theorem positiveCount_replicate_zero (n : ℕ) :
    positiveCount (List.replicate n 0) = 0 := by
  induction n with
  | zero => rfl
  | succ k ih =>
    rw [List.replicate_succ, positiveCount_cons, ih, if_neg (by norm_num)]
    ring

theorem negativeCount_replicate_zero (n : ℕ) :
    negativeCount (List.replicate n 0) = 0 := by
  induction n with
  | zero => rfl
  | succ k ih =>
    rw [List.replicate_succ, negativeCount_cons, ih, if_neg (by norm_num)]
    ring

/-! ## Claim C1 -/

/-- The content string of the spec's worked scenario. -/
def c1Content : String := "今日は天気がいい。明日は雨だ。"

/-- The classifier of the spec's worked scenario, with the probability triple
in the documented order (negative, neutral, positive). -/
def c1Classify : String → Option (ℚ × ℚ × ℚ) := fun s =>
  if s = "今日は天気がいい" then some (5/100, 15/100, 80/100)
  else if s = "明日は雨だ" then some (70/100, 20/100, 10/100)
  else none

theorem c1Eval : analyze_article_sentiment id c1Classify c1Content =
    .available (65/100) "ポジティブ" 1 0 0 1 := by
  have hlong : longSentences c1Content = ["今日は天気がいい"] := by decide
  have hscores : sentScores c1Classify c1Content = [65/100] := by
    rw [sentScores, hlong]
    simp only [List.map_cons, List.map_nil, get_sentiment_score, c1Classify, if_pos rfl]
    norm_num
  rw [analyze_article_plain id c1Classify c1Content (by decide) (by decide),
    analyze_text_eval c1Classify c1Content (by decide) (by decide)
      (by rw [hscores]; simp), hscores]
  have hmean : ratMean [(65 : ℚ)/100] = 65/100 := by simp [ratMean]
  have hr : round4 ((65 : ℚ)/100) = 65/100 := by unfold round4 roundHalfEven; norm_num
  have hlabel : overallLabel ((65 : ℚ)/100) = "ポジティブ" := by
    unfold overallLabel; rw [if_pos (by norm_num)]
  have hp : positiveCount [(65 : ℚ)/100] = 1 := by
    rw [positiveCount_cons, positiveCount_nil, if_pos (by norm_num)]; norm_num
  have hn : negativeCount [(65 : ℚ)/100] = 0 := by
    rw [negativeCount_cons, negativeCount_nil, if_neg (by norm_num)]; norm_num
  rw [hmean, hr, hlabel, hp, hn]
  norm_num

/-- C1 counterexample.  On the scenario input the code does **not** produce
the record claimed by the spec (`averageScore = 0.075`, label neutral,
`positive_count = 1, negative_count = 1, neutral_count = 0,
total_sentences = 2`): the second sentence 「明日は雨だ」 has exactly 5
characters and the filter `len(sentence) > 5` drops sentences of length 5, so
only one sentence is scored. -/
theorem c1_scenario_counterexample :
    analyze_article_sentiment id c1Classify c1Content ≠
      .available (75/1000) "中立" 1 1 0 2 := by
  rw [c1Eval]
  intro h
  injection h with e1 e2 e3 e4 e5 e6
  exact absurd e6 (by decide)

/-- C1 amended.  For the scenario content and classifier, the sentence
「明日は雨だ」 (exactly 5 characters) is filtered out, because the code keeps
only sentences strictly longer than 5 characters; the remaining sentence's
score is `prob[2] - prob[1] = 0.80 - 0.15 = 0.65` (the code subtracts the
middle probability, see C2), so the record is `averageScore = 0.65`, label
positive, `positive_count = 1, negative_count = 0, neutral_count = 0,
total_sentences = 1`. -/
theorem c1_scenario_amended : analyze_article_sentiment id c1Classify c1Content =
    .available (65/100) "ポジティブ" 1 0 0 1 := c1Eval

/-! ## Claim C2 -/

/-- A classifier returning `(P(negative), P(neutral), P(positive)) =
(0.7, 0.2, 0.1)` for every sentence. -/
def c2Classify : String → Option (ℚ × ℚ × ℚ) := fun _ => some (7/10, 1/5, 1/10)

/-- C2 evaluation at the failing input.  `get_sentiment_score` computes
`prob[2] - prob[1]`, which on the documented triple order
(negative, neutral, positive) is `P(positive) - P(neutral)`: for the triple
`(0.7, 0.2, 0.1)` the code hands `0.1 - 0.2 = -0.1` to aggregation, whereas
`P(positive) - P(negative)` — the claim, and the code's own comment
`# Positive - Negative` — is `0.1 - 0.7 = -0.6`. -/
theorem c2_score_order_eval :
    get_sentiment_score c2Classify "この発表は市場に悪い" = -((1 : ℚ)/10) ∧
    (1 : ℚ)/10 - 7/10 = -((3 : ℚ)/5) ∧
    -((1 : ℚ)/10) ≠ -((3 : ℚ)/5) := by
  refine ⟨?_, by norm_num, by norm_num⟩
  simp only [get_sentiment_score, c2Classify]
  norm_num

/-! ## Claim C3 -/

def c3Content : String := "これはとても良いです。これはひどい結果です。"

/-- A classifier that succeeds on the first sentence of `c3Content` with the
triple `(0, 0, 1)` and raises (returns `none`) on everything else. -/
def c3Classify : String → Option (ℚ × ℚ × ℚ) := fun s =>
  if s = "これはとても良いです" then some (0, 0, 1) else none

/-- C3 counterexample.  A sentence on which the classifier raises is **not**
excluded: `get_sentiment_score` swallows the exception and returns `0.0`, so
the sentence enters the average as a zero score, is counted as neutral, and
counts toward `total_sentences` (first conjunct: 2 sentences, of which the
failed one shows up as the neutral count, and the average is 0.5 rather than
1.0).  When the classifier fails on every sentence the record still has
`available = true`, with average 0 and label neutral (second conjunct),
contradicting the claimed `available = false`. -/
theorem c3_classifier_failure_counterexample :
    analyze_article_sentiment id c3Classify c3Content =
      .available (1/2) "ポジティブ" 1 0 1 2 ∧
    analyze_article_sentiment id (fun _ => none) c3Content =
      .available 0 "中立" 0 0 2 2 ∧
    (2 : ℤ) ≠ 1 := by
  have hlong : longSentences c3Content = ["これはとても良いです", "これはひどい結果です"] := by
    decide
  refine ⟨?_, ?_, by decide⟩
  · have hc1 : c3Classify "これはとても良いです" = some (0, 0, 1) := by
      unfold c3Classify; rw [if_pos rfl]
    have hc2 : c3Classify "これはひどい結果です" = none := by
      unfold c3Classify; rw [if_neg (by decide)]
    have hscores : sentScores c3Classify c3Content = [1, 0] := by
      rw [sentScores, hlong]
      simp only [List.map_cons, List.map_nil, get_sentiment_score, hc1, hc2]
      norm_num
    rw [analyze_article_plain id c3Classify c3Content (by decide) (by decide),
      analyze_text_eval c3Classify c3Content (by decide) (by decide)
        (by simp [hscores]), hscores]
    have hmean : ratMean [(1 : ℚ), 0] = 1/2 := by simp [ratMean]
    have hr : round4 ((1 : ℚ)/2) = 1/2 := by unfold round4 roundHalfEven; norm_num
    have hlabel : overallLabel ((1 : ℚ)/2) = "ポジティブ" := by
      unfold overallLabel; rw [if_pos (by norm_num)]
    have hp : positiveCount [(1 : ℚ), 0] = 1 := by
      rw [positiveCount_cons, positiveCount_cons, positiveCount_nil,
        if_pos (by norm_num), if_neg (by norm_num)]
      norm_num
    have hn : negativeCount [(1 : ℚ), 0] = 0 := by
      rw [negativeCount_cons, negativeCount_cons, negativeCount_nil,
        if_neg (by norm_num), if_neg (by norm_num)]
      norm_num
    rw [hmean, hr, hlabel, hp, hn]
    norm_num
  · have hscores : sentScores (fun _ => none) c3Content = [0, 0] := by
      rw [sentScores, hlong]; rfl
    rw [analyze_article_plain id (fun _ => none) c3Content (by decide) (by decide),
      analyze_text_eval (fun _ => none) c3Content (by decide) (by decide)
        (by simp [hscores]), hscores]
    have hmean : ratMean [(0 : ℚ), 0] = 0 := by simp [ratMean]
    have hlabel : overallLabel (0 : ℚ) = "中立" := by
      unfold overallLabel; rw [if_neg (by norm_num), if_neg (by norm_num)]
    have hp : positiveCount [(0 : ℚ), 0] = 0 := by
      rw [positiveCount_cons, positiveCount_cons, positiveCount_nil]
      norm_num
    have hn : negativeCount [(0 : ℚ), 0] = 0 := by
      rw [negativeCount_cons, negativeCount_cons, negativeCount_nil]
      norm_num
    rw [hmean, round4_zero, hlabel, hp, hn]
    norm_num

/-- C3 amended.  Classifier failure on a sentence yields score `0.0` for that
sentence (first conjunct); the sentence is **included**: `total_sentences`
always counts every sentence that passed the length filter, classifier
failures included (second conjunct); and when the classifier fails on every
sentence the record is still `available = true`, with average score 0, label
neutral, and every sentence counted as neutral (third conjunct). -/
theorem c3_classifier_failure_amended :
    (∀ (classify : String → Option (ℚ × ℚ × ℚ)) (s : String),
      classify s = none → get_sentiment_score classify s = 0) ∧
    (∀ (classify : String → Option (ℚ × ℚ × ℚ)) (t : String) (avg : ℚ) (lbl : String)
      (p n u tot : ℤ), analyze_text classify t = .available avg lbl p n u tot →
      tot = ((longSentences t).length : ℤ)) ∧
    (∀ t : String, pyStrip t ≠ "" → splitSentences t ≠ [] → longSentences t ≠ [] →
      analyze_text (fun _ => none) t =
        .available 0 "中立" 0 0 ((longSentences t).length : ℤ)
          ((longSentences t).length : ℤ)) := by
  refine ⟨?_, ?_, ?_⟩
  · intro classify s h
    simp [get_sentiment_score, h]
  · intro classify t avg lbl p n u tot h
    obtain ⟨-, -, -, -, -, -, htot⟩ := analyze_text_available_inv classify t avg lbl p n u tot h
    rw [htot, sentScores, List.length_map]
  · intro t hstrip hsplit hlong
    have hf : sentScores (fun _ => none) t = (longSentences t).map (fun _ => (0 : ℚ)) := rfl
    have hs : sentScores (fun _ => none) t =
        List.replicate (longSentences t).length (0 : ℚ) := by
      rw [hf, List.map_const']
    have hne : sentScores (fun _ => none) t ≠ [] := by
      rw [hs]
      intro hnil
      have hzero := congrArg List.length hnil
      simp only [List.length_replicate, List.length_nil] at hzero
      exact hlong (List.length_eq_zero.mp hzero)
    rw [analyze_text_eval (fun _ => none) t hstrip hsplit hne, hs]
    have hmean : ratMean (List.replicate (longSentences t).length (0 : ℚ)) = 0 := by
      simp [ratMean, List.sum_replicate]
    have hlabel : overallLabel (0 : ℚ) = "中立" := by
      unfold overallLabel; rw [if_neg (by norm_num), if_neg (by norm_num)]
    rw [hmean, round4_zero, hlabel, positiveCount_replicate_zero,
      negativeCount_replicate_zero, List.length_replicate]
    norm_num

/-- C3 witness: the amended theorem applied at the concrete input of the
counterexample. -/
theorem c3_classifier_failure_witness :
    get_sentiment_score (fun _ => none) "これはひどい結果です" = 0 ∧
    analyze_text (fun _ => none) c3Content = .available 0 "中立" 0 0 2 2 := by
  constructor
  · exact c3_classifier_failure_amended.1 (fun _ => none) "これはひどい結果です" rfl
  · have h := c3_classifier_failure_amended.2.2 c3Content (by decide) (by decide)
      (by decide)
    have hlen : longSentences c3Content = ["これはとても良いです", "これはひどい結果です"] := by
      decide
    rw [hlen] at h
    exact_mod_cast h

/-! ## Claim C4 -/

/-- C4.  Every sentiment record produced with `available = true` satisfies
`positive_count + negative_count + neutral_count = total_sentences`, all four
counts are non-negative, and `total_sentences ≥ 1`. -/
theorem c4_count_invariant (htmlExtract : String → String)
    (classify : String → Option (ℚ × ℚ × ℚ)) (content : String)
    (avg : ℚ) (lbl : String) (p n u tot : ℤ)
    (h : analyze_article_sentiment htmlExtract classify content =
      .available avg lbl p n u tot) :
    p + n + u = tot ∧ 0 ≤ p ∧ 0 ≤ n ∧ 0 ≤ u ∧ 0 ≤ tot ∧ 1 ≤ tot := by
  obtain ⟨t, ht⟩ := analyze_article_available_inv htmlExtract classify content
    avg lbl p n u tot h
  obtain ⟨hne, -, -, hp, hn, hu, htot⟩ :=
    analyze_text_available_inv classify t avg lbl p n u tot ht
  have hple := posNeg_le_length (sentScores classify t)
  have hlen : 1 ≤ ((sentScores classify t).length : ℤ) := by
    have := List.length_pos.mpr hne
    omega
  refine ⟨by omega, ?_, ?_, ?_, by omega, by omega⟩
  · rw [hp]; exact positiveCount_nonneg _
  · rw [hn]; exact negativeCount_nonneg _
  · rw [hu, hp, hn]; omega

/-- A content string and a classifier used to instantiate the universally
quantified theorems: one sentence, classified `(0, 0, 1)`. -/
def goodContent : String := "とても良い結果になりました"

def allPosClassify : String → Option (ℚ × ℚ × ℚ) := fun _ => some (0, 0, 1)

theorem goodContentEval : analyze_article_sentiment id allPosClassify goodContent =
    .available 1 "ポジティブ" 1 0 0 1 := by
  have hlong : longSentences goodContent = ["とても良い結果になりました"] := by decide
  have hscores : sentScores allPosClassify goodContent = [1] := by
    rw [sentScores, hlong]
    simp only [List.map_cons, List.map_nil, get_sentiment_score, allPosClassify]
    norm_num
  rw [analyze_article_plain id allPosClassify goodContent (by decide) (by decide),
    analyze_text_eval allPosClassify goodContent (by decide) (by decide)
      (by simp [hscores]), hscores]
  have hmean : ratMean [(1 : ℚ)] = 1 := by simp [ratMean]
  have hr : round4 (1 : ℚ) = 1 := by unfold round4 roundHalfEven; norm_num
  have hlabel : overallLabel (1 : ℚ) = "ポジティブ" := by
    unfold overallLabel; rw [if_pos (by norm_num)]
  have hp : positiveCount [(1 : ℚ)] = 1 := by
    rw [positiveCount_cons, positiveCount_nil, if_pos (by norm_num)]; norm_num
  have hn : negativeCount [(1 : ℚ)] = 0 := by
    rw [negativeCount_cons, negativeCount_nil, if_neg (by norm_num)]; norm_num
  rw [hmean, hr, hlabel, hp, hn]
  norm_num

/-- C4 witness: the invariant theorem applied at a concrete record. -/
theorem c4_count_invariant_witness :
    (1 : ℤ) + 0 + 0 = 1 ∧ (0 : ℤ) ≤ 1 ∧ (0 : ℤ) ≤ 0 ∧ (0 : ℤ) ≤ 0 ∧ (0 : ℤ) ≤ 1 ∧
      (1 : ℤ) ≤ 1 :=
  c4_count_invariant id allPosClassify goodContent 1 "ポジティブ" 1 0 0 1 goodContentEval

/-! ## Claim C5 -/

def c5Content : String := "市場は上昇した"

/-- A classifier whose score is `0.50004 - 0.4 = 0.10004`, strictly above the
threshold but rounding (to 4 decimal places) down to exactly `0.1`. -/
def c5Classify : String → Option (ℚ × ℚ × ℚ) := fun _ =>
  some (9996/100000, 2/5, 50004/100000)

/-- C5 counterexample.  The label is computed from the **unrounded** mean
while the record stores the mean rounded to 4 decimal places, so at the
threshold boundary the stated iff fails: here the record's label is positive
although the recorded `averageScore` is exactly `0.1`, which is not `> 0.1`. -/
theorem c5_threshold_counterexample :
    analyze_article_sentiment id c5Classify c5Content =
      .available (1/10) "ポジティブ" 1 0 0 1 ∧
    ¬ ((1 : ℚ)/10 < 1/10) := by
  refine ⟨?_, by norm_num⟩
  have hlong : longSentences c5Content = ["市場は上昇した"] := by decide
  have hscores : sentScores c5Classify c5Content = [10004/100000] := by
    rw [sentScores, hlong]
    simp only [List.map_cons, List.map_nil, get_sentiment_score, c5Classify]
    norm_num
  rw [analyze_article_plain id c5Classify c5Content (by decide) (by decide),
    analyze_text_eval c5Classify c5Content (by decide) (by decide)
      (by simp [hscores]), hscores]
  have hmean : ratMean [(10004 : ℚ)/100000] = 10004/100000 := by simp [ratMean]
  have hr : round4 ((10004 : ℚ)/100000) = 1/10 := by
    unfold round4 roundHalfEven; norm_num
  have hlabel : overallLabel ((10004 : ℚ)/100000) = "ポジティブ" := by
    unfold overallLabel; rw [if_pos (by norm_num)]
  have hp : positiveCount [(10004 : ℚ)/100000] = 1 := by
    rw [positiveCount_cons, positiveCount_nil, if_pos (by norm_num)]; norm_num
  have hn : negativeCount [(10004 : ℚ)/100000] = 0 := by
    rw [negativeCount_cons, negativeCount_nil, if_neg (by norm_num)]; norm_num
  rw [hmean, hr, hlabel, hp, hn]
  norm_num

/-- C5 amended.  For every record produced with `available = true`: the label
is derived from the unrounded mean with the ±0.1 thresholds, and the recorded
`averageScore` is that mean rounded half-even to 4 decimal places; hence
`averageScore > 0.1` implies the label is positive and the label being
positive implies `averageScore ≥ 0.1` (dually for negative, with equality
possible only at the rounding boundary), and the label is always one of
positive/negative/neutral.  The per-sentence buckets use the same ±0.1
thresholds on the unrounded scores (`positiveCount`/`negativeCount` above,
the definitions used verbatim by `analyze_text`). -/
theorem c5_threshold_amended (htmlExtract : String → String)
    (classify : String → Option (ℚ × ℚ × ℚ)) (content : String)
    (avg : ℚ) (lbl : String) (p n u tot : ℤ)
    (h : analyze_article_sentiment htmlExtract classify content =
      .available avg lbl p n u tot) :
    ((1 : ℚ)/10 < avg → lbl = "ポジティブ") ∧
    (lbl = "ポジティブ" → (1 : ℚ)/10 ≤ avg) ∧
    (avg < -((1 : ℚ)/10) → lbl = "ネガティブ") ∧
    (lbl = "ネガティブ" → avg ≤ -((1 : ℚ)/10)) ∧
    (lbl = "ポジティブ" ∨ lbl = "ネガティブ" ∨ lbl = "中立") := by
  obtain ⟨t, ht⟩ := analyze_article_available_inv htmlExtract classify content
    avg lbl p n u tot h
  obtain ⟨-, havg, hlbl, -, -, -, -⟩ :=
    analyze_text_available_inv classify t avg lbl p n u tot ht
  set m := ratMean (sentScores classify t) with hm
  have hpos_of : (1 : ℚ)/10 < m → lbl = "ポジティブ" := by
    intro hlt
    rw [hlbl]; unfold overallLabel; rw [if_pos hlt]
  have hneg_of : m < -((1 : ℚ)/10) → lbl = "ネガティブ" := by
    intro hlt
    rw [hlbl]; unfold overallLabel
    rw [if_neg (by linarith), if_pos hlt]
  refine ⟨?_, ?_, ?_, ?_, ?_⟩
  · intro hlt
    apply hpos_of
    by_contra hnot
    have : avg ≤ (1 : ℚ)/10 := by
      rw [havg, ← round4_tenth]
      exact round4_mono (by linarith)
    linarith
  · intro hl
    have hmlt : (1 : ℚ)/10 < m := by
      by_contra hnot
      rw [hlbl] at hl
      unfold overallLabel at hl
      rw [if_neg hnot] at hl
      split_ifs at hl <;> exact absurd hl (by decide)
    rw [havg, ← round4_tenth]
    exact round4_mono (by linarith)
  · intro hlt
    apply hneg_of
    by_contra hnot
    have : -((1 : ℚ)/10) ≤ avg := by
      rw [havg, ← round4_neg_tenth]
      exact round4_mono (by linarith)
    linarith
  · intro hl
    have hmlt : m < -((1 : ℚ)/10) := by
      by_contra hnot
      rw [hlbl] at hl
      unfold overallLabel at hl
      split_ifs at hl <;> exact absurd hl (by decide)
    rw [havg, ← round4_neg_tenth]
    exact round4_mono (by linarith)
  · rw [hlbl]; unfold overallLabel
    split_ifs <;> simp

/-- C5 witness: the amended theorem applied at a concrete record. -/
theorem c5_threshold_witness :
    ((1 : ℚ)/10 < 1 → "ポジティブ" = "ポジティブ") ∧
    ("ポジティブ" = "ポジティブ" → (1 : ℚ)/10 ≤ 1) ∧
    ((1 : ℚ) < -((1 : ℚ)/10) → "ポジティブ" = "ネガティブ") ∧
    ("ポジティブ" = "ネガティブ" → (1 : ℚ) ≤ -((1 : ℚ)/10)) ∧
    ("ポジティブ" = "ポジティブ" ∨ "ポジティブ" = "ネガティブ" ∨ "ポジティブ" = "中立") :=
  c5_threshold_amended id allPosClassify goodContent 1 "ポジティブ" 1 0 0 1 goodContentEval

/-! ## Claim C6 -/

theorem ratMean_single (x : ℚ) : ratMean [x] = x := by simp [ratMean]

/-- In a row list with pairwise distinct dates, filtering by the date of a
member singles out exactly that member. -/
theorem filter_date_eq_single {l : List TRow} (hnd : (l.map TRow.date).Nodup)
    {r : TRow} (hr : r ∈ l) :
    l.filter (fun x => x.date = r.date) = [r] := by
  induction l with
  | nil => cases hr
  | cons a t ih =>
    rw [List.map_cons, List.nodup_cons] at hnd
    obtain ⟨hmem, hnd'⟩ := hnd
    rcases List.mem_cons.mp hr with rfl | hrt
    · rw [List.filter_cons, if_pos (by simp)]
      have ht : t.filter (fun x => x.date = r.date) = [] := by
        rw [List.filter_eq_nil_iff]
        intro x hx hxd
        exact hmem (List.mem_map.mpr ⟨x, hx, by simpa using hxd⟩)
      rw [ht]
    · have hne : a.date ≠ r.date := by
        intro he
        exact hmem (he ▸ List.mem_map.mpr ⟨r, hrt, rfl⟩)
      rw [List.filter_cons, if_neg (by simpa using hne)]
      exact ih hnd' hrt

/-- With pairwise distinct dates, the per-day mean-score series is exactly the
per-article score series sorted by date. -/
theorem dailyMeanSeries_of_nodup (rows : List TRow)
    (hnd : (rows.map TRow.date).Nodup) :
    dailyMeanSeries rows = (sortByDate rows).map TRow.score := by
  have hperm : List.Perm (sortByDate rows) rows := List.perm_insertionSort _ rows
  have hnd' : ((sortByDate rows).map TRow.date).Nodup :=
    ((hperm.map TRow.date).nodup_iff).mpr hnd
  rw [dailyMeanSeries, dailyDates, List.dedup_eq_self.mpr hnd', List.map_map]
  apply List.map_congr_left
  intro r hr
  have hrr : r ∈ rows := hperm.subset hr
  simp only [Function.comp_apply]
  rw [filter_date_eq_single hnd hrr, List.map_cons, List.map_nil, ratMean_single]

/-- The rows handed to the chart in the spec's worked example: a 7-day series
with one article per day and daily mean scores
`[0.2, 0.1, -0.3, 0.4, 0.0, -0.1, 0.2]`. -/
def c6Rows7 : List TRow :=
  [⟨0, 1/5⟩, ⟨1, 1/10⟩, ⟨2, -(3/10)⟩, ⟨3, 2/5⟩, ⟨4, 0⟩, ⟨5, -(1/10)⟩, ⟨6, 1/5⟩]

/-- Three result rows on two distinct days: two articles on day 1, one on
day 2. -/
def c6RowsDup : List TRow := [⟨1, 0⟩, ⟨1, 0⟩, ⟨2, 3/10⟩]

theorem c6SortDup : sortByDate c6RowsDup = c6RowsDup := by
  simp [sortByDate, c6RowsDup, List.insertionSort, List.orderedInsert]

/-- C6 counterexample.  The code's rolling series is **not** the spec's: with
two articles on day 1 (scores 0, 0) and one on day 2 (score 0.3), the code
computes a window of `min(5, 3 rows) = 3` over the three per-article scores,
giving `[none, 0.1, none]`, while the claimed per-day computation has window
`min(5, 2 days) = 2` over the daily means `[0, 0.3]`, giving `[0.15, none]`. -/
theorem c6_rolling_counterexample :
    create_sentiment_ma c6RowsDup = [none, some (1/10), none] ∧
    spec_daily_rolling_ma c6RowsDup = [some (3/20), none] ∧
    ([none, some ((1 : ℚ)/10), none] : List (Option ℚ)) ≠ [some (3/20), none] := by
  refine ⟨?_, ?_, by simp⟩
  · simp only [create_sentiment_ma, c6SortDup]
    rw [show c6RowsDup.length = 3 from rfl,
      show min 5 3 = 3 by norm_num, if_pos (by norm_num)]
    have hmap : c6RowsDup.map TRow.score = [0, 0, 3/10] := by simp [c6RowsDup]
    rw [hmap]
    simp [rollingCenteredMean, List.range_succ]
    norm_num
  · have hd : dailyDates c6RowsDup = [1, 2] := by decide
    have hdm : dailyMeanSeries c6RowsDup = [0, 3/10] := by
      rw [dailyMeanSeries, hd]
      simp [c6RowsDup, ratMean]
    simp only [spec_daily_rolling_ma, hdm]
    rw [show ([0, (3 : ℚ)/10] : List ℚ).length = 2 from rfl,
      show min 5 2 = 2 by norm_num]
    simp [rollingCenteredMean, List.range_succ]
    norm_num

/-- C6 amended.  The rolling average is a centred rolling mean over the
**per-article** score series sorted by date, with window size
`min(5, number of result rows)`, and no rolling series at all when that
window is smaller than 2 (first conjunct: the spec's 7-day example, where
each day has exactly one article, evaluates as the spec states — index 2
carries the mean of days 0–4 and boundary days carry no value).  Whenever
each date occurs at most once and there are at least two rows, the code's
series coincides with the spec's per-day description (second conjunct). -/
theorem c6_rolling_amended :
    (create_sentiment_ma c6Rows7 =
      [none, none, some (2/25), some (1/50), some (1/25), none, none]) ∧
    (∀ rows : List TRow, 2 ≤ rows.length → (rows.map TRow.date).Nodup →
      create_sentiment_ma rows = spec_daily_rolling_ma rows) := by
  constructor
  · have hsort : sortByDate c6Rows7 = c6Rows7 := by
      simp [sortByDate, c6Rows7, List.insertionSort, List.orderedInsert]
    simp only [create_sentiment_ma, hsort]
    rw [show c6Rows7.length = 7 from rfl,
      show min 5 7 = 5 by norm_num, if_pos (by norm_num)]
    have hmap : c6Rows7.map TRow.score = [1/5, 1/10, -(3/10), 2/5, 0, -(1/10), 1/5] := by
      simp [c6Rows7]
    rw [hmap]
    simp [rollingCenteredMean, List.range_succ]
    norm_num
  · intro rows h2 hnd
    have hseries := dailyMeanSeries_of_nodup rows hnd
    have hlen : (sortByDate rows).length = rows.length := List.length_insertionSort _ rows
    simp only [create_sentiment_ma, spec_daily_rolling_ma, hseries, List.length_map, hlen]
    rw [if_pos (le_min (by norm_num) h2)]

/-- C6 witness: the equivalence applied at the 7-day example rows (whose
dates are pairwise distinct). -/
theorem c6_rolling_witness :
    create_sentiment_ma c6Rows7 = spec_daily_rolling_ma c6Rows7 :=
  c6_rolling_amended.2 c6Rows7 (by decide) (by decide)

/-! ## Claim C7 -/

/-- The loop of the generic content chain, with an arbitrary accumulator,
equals the declarative description: first matched text over 100 characters,
else the last matched text, else the accumulator. -/
theorem contentChainAux_spec (cands : List (Option HNode)) (acc : String) :
    contentChainAux cands acc =
      match (chainTexts cands).find? (fun t => 100 < t.length) with
      | some t => t
      | none => (chainTexts cands).getLastD acc := by
  induction cands generalizing acc with
  | nil => rfl
  | cons oc rest ih =>
    cases oc with
    | none =>
      show contentChainAux rest acc = _
      rw [ih acc]
      rfl
    | some el =>
      show (if 100 < (candText el).length then candText el
        else contentChainAux rest (candText el)) = _
      have hct : chainTexts (some el :: rest) = candText el :: chainTexts rest := rfl
      by_cases h : 100 < (candText el).length
      · rw [if_pos h, hct, List.find?_cons_of_pos _ (by simpa using h)]
      · rw [if_neg h, ih (candText el), hct,
          List.find?_cons_of_neg _ (by simpa using h), List.getLastD_cons]

/-- C7 counterexample.  When no candidate exceeds 100 characters the loop
keeps the **last** matched candidate's text, not the best non-empty one: with
a first candidate resolving to the 5-character text 「こんにちは」 and a
second candidate resolving to empty text, the result is the empty string even
though a non-empty candidate was seen. -/
theorem c7_content_chain_counterexample :
    extractContentChain [some (.elem "article" (.cons (.txt "こんにちは") .nil)),
        some (.elem "main" .nil)] = "" ∧
    candText (.elem "article" (.cons (.txt "こんにちは") .nil)) = "こんにちは" ∧
    ("こんにちは" : String) ≠ "" := by
  refine ⟨by decide, by decide, by decide⟩

/-- C7 amended.  The generic fallback chain returns the text of the first
matched candidate whose pruned text exceeds 100 characters; if no candidate
exceeds 100 characters it returns the text of the **last** matched candidate
(which may be empty — not the best non-empty candidate seen); and if no
selector matches at all it returns the sentinel 「本文を取得できませんでした」,
never an exception. -/
theorem c7_content_chain_amended :
    ∀ cands : List (Option HNode), extractContentChain cands = chainDeclarative cands :=
  fun cands => contentChainAux_spec cands contentFailMsg2

/-! ## Claim C8 -/

/-- Pruning the banned tags and then collecting text segments yields exactly
the segments lying outside every banned-tag subtree. -/
theorem segs_pruneForest :
    ∀ ts : HForest, forestSegs (pruneForest ts) = forestSegsAvoiding ts
  | .nil => rfl
  | .cons (.txt s) rest => by
    simp [pruneForest, forestSegs, nodeSegs, forestSegsAvoiding, segs_pruneForest rest]
  | .cons (.elem t cs) rest => by
    by_cases h : t ∈ bannedTags <;>
      simp [pruneForest, forestSegs, nodeSegs, forestSegsAvoiding, h,
        segs_pruneForest cs, segs_pruneForest rest]

/-- C8 counterexample.  The Bloomberg `parse_article` path does **not** prune
script/style/nav/header/footer/aside subtrees: for a container holding only a
`p` inside a `nav`, `parse_article` pools the text 「メニュー」 from under the
`nav`, while the generic selector path (which does prune) extracts nothing. -/
theorem c8_prune_counterexample :
    parse_article_content (.elem "article"
      (.cons (.elem "nav" (.cons (.elem "p" (.cons (.txt "メニュー") .nil)) .nil)) .nil)) =
      "メニュー" ∧
    candText (.elem "article"
      (.cons (.elem "nav" (.cons (.elem "p" (.cons (.txt "メニュー") .nil)) .nil)) .nil)) = "" ∧
    ("メニュー" : String) ≠ "" := by
  refine ⟨by decide, by decide, by decide⟩

/-- C8 amended.  On the **generic** selector path the banned subtrees are
pruned before text extraction, so the pooled text of a matched container is
exactly the text lying outside every banned-tag subtree (both conjuncts);
the Bloomberg `parse_article` path performs no such pruning (see the
counterexample). -/
theorem c8_prune_amended :
    (∀ ts : HForest, forestSegs (pruneForest ts) = forestSegsAvoiding ts) ∧
    (∀ (tag : String) (cs : HForest),
      candText (.elem tag cs) = String.join ((forestSegsAvoiding cs).map pyStrip)) := by
  refine ⟨segs_pruneForest, ?_⟩
  intro tag cs
  show String.join ((nodeSegs (.elem tag (pruneForest cs))).map pyStrip) = _
  rw [show nodeSegs (.elem tag (pruneForest cs)) = forestSegs (pruneForest cs) from rfl,
    segs_pruneForest cs]

/-! ## Claim C9 -/

/-- The batch loop is the row-wise filter-map of its per-row body: each row
either contributes its result in place or is skipped. -/
theorem process_eq_filterMap (scrape : String → Option Article)
    (classify : String → Option (ℚ × ℚ × ℚ)) (htmlExtract : String → String)
    (rows : List ManifestRow) :
    process_csv_articles scrape classify htmlExtract rows
      = rows.filterMap (processRow scrape classify htmlExtract) := by
  induction rows with
  | nil => rfl
  | cons r rest ih =>
    simp only [process_csv_articles, List.filterMap_cons]
    cases h : processRow scrape classify htmlExtract r <;> simp [h, ih]

/-- Mapping a filter-map is a sublist of the corresponding full map: the
surviving images appear in the original relative order. -/
theorem filterMap_map_sublist {α β γ : Type} (f : α → Option β) (g : β → γ) (h : α → γ)
    (hfg : ∀ a b, f a = some b → g b = h a) :
    ∀ l : List α, List.Sublist ((l.filterMap f).map g) (l.map h) := by
  intro l
  induction l with
  | nil => simp
  | cons a t ih =>
    rw [List.filterMap_cons, List.map_cons]
    cases hfa : f a with
    | none => exact ih.cons _
    | some b =>
      rw [List.map_cons, hfg a b hfa]
      exact ih.cons₂ _

theorem processRow_url (scrape : String → Option Article)
    (classify : String → Option (ℚ × ℚ × ℚ)) (htmlExtract : String → String)
    (row : ManifestRow) (r : ResultRow)
    (h : processRow scrape classify htmlExtract row = some r) :
    r.url = row.bloomberg_url := by
  unfold processRow at h
  cases hs : scrape row.bloomberg_url with
  | none => rw [hs] at h; exact Option.noConfusion h
  | some article =>
    rw [hs] at h
    dsimp only at h
    split_ifs at h with hc
    all_goals first
      | exact Option.noConfusion h
      | (cases ha : analyze_article_sentiment htmlExtract classify article.content with
         | unavailable m => rw [ha] at h; exact Option.noConfusion h
         | available avg lbl p n u tot =>
             rw [ha] at h
             injection h with he
             rw [← he])

/-- The articles served by the concrete 3-row scenario's scrape oracle. -/
def c9Article (u : String) : Article :=
  ⟨"記事" ++ u, goodContent, u, "不明", "日付不明", "著者不明"⟩

/-- The scenario's scrape oracle: row 2's URL is unreachable, rows 1 and 3
succeed. -/
def c9Scrape : String → Option Article := fun u =>
  if u = "u2" then none else some (c9Article u)

def c9Rows : List ManifestRow :=
  [⟨"2024-01-01", "u1"⟩, ⟨"2024-01-02", "u2"⟩, ⟨"2024-01-03", "u3"⟩]

/-- C9.  The batch result rows appear in the manifest's relative order with
skipped entries simply absent: the loop equals the row-wise filter-map
(first conjunct), the result URLs form a sublist of the manifest URLs in
order (second conjunct), and the concrete 3-row manifest whose second URL
fails yields exactly the rows for rows 1 and 3, in that order
(third conjunct). -/
theorem c9_batch_order (scrape : String → Option Article)
    (classify : String → Option (ℚ × ℚ × ℚ)) (htmlExtract : String → String)
    (rows : List ManifestRow) :
    (process_csv_articles scrape classify htmlExtract rows
      = rows.filterMap (processRow scrape classify htmlExtract)) ∧
    List.Sublist
      ((process_csv_articles scrape classify htmlExtract rows).map ResultRow.url)
      (rows.map ManifestRow.bloomberg_url) ∧
    process_csv_articles c9Scrape allPosClassify id c9Rows =
      [⟨"2024-01-01", "u1", "記事u1", 1, "ポジティブ", 1, 0, 0, 1⟩,
       ⟨"2024-01-03", "u3", "記事u3", 1, "ポジティブ", 1, 0, 0, 1⟩] := by
  refine ⟨process_eq_filterMap scrape classify htmlExtract rows, ?_, ?_⟩
  · rw [process_eq_filterMap]
    exact filterMap_map_sublist _ _ _
      (fun a b hab => processRow_url scrape classify htmlExtract a b hab) rows
  · have hne : goodContent ≠ contentFailMsg2 := by decide
    have e1 : processRow c9Scrape allPosClassify id ⟨"2024-01-01", "u1"⟩ =
        some ⟨"2024-01-01", "u1", "記事u1", 1, "ポジティブ", 1, 0, 0, 1⟩ := by
      simp [processRow, c9Scrape, c9Article, hne, goodContentEval]
    have e2 : processRow c9Scrape allPosClassify id ⟨"2024-01-02", "u2"⟩ = none := by
      simp [processRow, c9Scrape]
    have e3 : processRow c9Scrape allPosClassify id ⟨"2024-01-03", "u3"⟩ =
        some ⟨"2024-01-03", "u3", "記事u3", 1, "ポジティブ", 1, 0, 0, 1⟩ := by
      simp [processRow, c9Scrape, c9Article, hne, goodContentEval]
    rw [process_eq_filterMap, show c9Rows =
      [⟨"2024-01-01", "u1"⟩, ⟨"2024-01-02", "u2"⟩, ⟨"2024-01-03", "u3"⟩] from rfl]
    simp only [List.filterMap_cons, e1, e2, e3, List.filterMap_nil]

/-! ## Claim C10 -/

theorem isPrefixOf_append_self : ∀ l m : List Char, l.isPrefixOf (l ++ m) = true := by
  intro l m
  induction l with
  | nil => simp [List.isPrefixOf]
  | cons c t ih => simp [List.isPrefixOf, ih]

theorem listInfixB_append_left (n : List Char) :
    ∀ pre l : List Char, listInfixB n l = true → listInfixB n (pre ++ l) = true := by
  intro pre
  induction pre with
  | nil => intro l h; simpa using h
  | cons c t ih =>
    intro l h
    show (n.isPrefixOf (c :: (t ++ l)) || listInfixB n (t ++ l)) = true
    rw [ih l h, Bool.or_true]

theorem strContains_append_left (base h needle : String)
    (hc : strContains h needle = true) : strContains (base ++ h) needle = true := by
  unfold strContains at hc ⊢
  rw [String.data_append]
  exact listInfixB_append_left needle.data base.data h.data hc

theorem strStartsWith_append_self (base h : String) :
    strStartsWith (base ++ h) base = true := by
  unfold strStartsWith
  rw [String.data_append]
  exact isPrefixOf_append_self base.data h.data

/-- The property every collected link satisfies: it contains the article path
marker and the (normalised) search date, and it is either the Bloomberg host
prepended to a root-relative href, or an href taken verbatim (one that does
not start with `/`). -/
def linkProp (sd : String) (hrefs0 : List String) (u : String) : Prop :=
  strContains u newsPathMarker = true ∧ strContains u sd = true ∧
    (strStartsWith u bloombergBase = true ∨
      (u ∈ hrefs0 ∧ strStartsWith u "/" = false))

theorem collect_links_spec (sd : String) (hrefs0 : List String) :
    ∀ l acc : List String, (∀ h ∈ l, h ∈ hrefs0) → acc.Nodup →
      (∀ u ∈ acc, linkProp sd hrefs0 u) →
      (collect_links sd l acc).Nodup ∧ ∀ u ∈ collect_links sd l acc, linkProp sd hrefs0 u := by
  intro l
  induction l with
  | nil => intro acc _ hnd hP; exact ⟨hnd, hP⟩
  | cons h t ih =>
    intro acc hsub hnd hP
    have hsub' : ∀ x ∈ t, x ∈ hrefs0 := fun x hx => hsub x (List.mem_cons_of_mem h hx)
    simp only [collect_links]
    by_cases hm : articleLinkMatches sd h = true
    · rw [if_pos hm]
      have hmarks := hm
      unfold articleLinkMatches at hmarks
      rw [Bool.and_eq_true] at hmarks
      by_cases hsl : strStartsWith h "/" = true
      · rw [if_pos hsl]
        have hfull : linkProp sd hrefs0 (bloombergBase ++ h) :=
          ⟨strContains_append_left _ _ _ hmarks.1,
           strContains_append_left _ _ _ hmarks.2,
           Or.inl (strStartsWith_append_self bloombergBase h)⟩
        by_cases hin : bloombergBase ++ h ∈ acc
        · rw [if_pos hin]; exact ih acc hsub' hnd hP
        · rw [if_neg hin]
          refine ih (acc ++ [bloombergBase ++ h]) hsub' ?_ ?_
          · rw [List.nodup_append]
            exact ⟨hnd, List.nodup_singleton _, by
              intro a ha hb
              rw [List.mem_singleton] at hb
              exact hin (hb ▸ ha)⟩
          · intro u hu
            rcases List.mem_append.mp hu with hu | hu
            · exact hP u hu
            · rw [List.mem_singleton] at hu
              exact hu ▸ hfull
      · rw [if_neg hsl]
        have hfull : linkProp sd hrefs0 h :=
          ⟨hmarks.1, hmarks.2,
           Or.inr ⟨hsub h (List.mem_cons_self h t), Bool.not_eq_true _ ▸ hsl⟩⟩
        by_cases hin : h ∈ acc
        · rw [if_pos hin]; exact ih acc hsub' hnd hP
        · rw [if_neg hin]
          refine ih (acc ++ [h]) hsub' ?_ ?_
          · rw [List.nodup_append]
            exact ⟨hnd, List.nodup_singleton _, by
              intro a ha hb
              rw [List.mem_singleton] at hb
              exact hin (hb ▸ ha)⟩
          · intro u hu
            rcases List.mem_append.mp hu with hu | hu
            · exact hP u hu
            · rw [List.mem_singleton] at hu
              exact hu ▸ hfull
    · rw [if_neg hm]
      exact ih acc hsub' hnd hP

/-- C10 counterexample.  Two failures of the claim as stated.  First conjunct
group: a matching href that does not start with `/` (here
`x/news/articles/2025-09-23/abc`) is returned verbatim, so the result
contains a non-absolute URL (no scheme prefix).  Second conjunct group: for
the requested date string `2025-9-23` (accepted by `strptime`, which allows
unpadded months and days) the filter uses the normalised form `2025-09-23`,
so the returned URL does not contain the requested date string itself. -/
theorem c10_links_counterexample :
    (get_bloomberg_articles_by_date (some ["x/news/articles/2025-09-23/abc"]) "2025-09-23"
        = ["x/news/articles/2025-09-23/abc"] ∧
      strStartsWith "x/news/articles/2025-09-23/abc" "https://" = false ∧
      strStartsWith "x/news/articles/2025-09-23/abc" "http://" = false) ∧
    (get_bloomberg_articles_by_date (some ["/news/articles/2025-09-23/abc"]) "2025-9-23"
        = ["https://www.bloomberg.co.jp/news/articles/2025-09-23/abc"] ∧
      strContains "https://www.bloomberg.co.jp/news/articles/2025-09-23/abc" "2025-9-23"
        = false) := by
  refine ⟨⟨by decide, by decide, by decide⟩, ⟨by decide, by decide⟩⟩

/-- C10 amended.  `get_bloomberg_articles_by_date` returns `[]` on fetch
failure and on unparseable date strings (first two conjuncts); on success the
result has no duplicates and every element contains `/news/articles/` and the
**normalised** (`strftime`-zero-padded) form of the requested date, and is
either the Bloomberg host prepended to a root-relative href or an input href
returned verbatim (absolute only if the href itself was) — the host prefix is
added exactly to hrefs that start with `/` (third conjunct). -/
theorem c10_links_amended :
    (∀ d : String, get_bloomberg_articles_by_date none d = []) ∧
    (∀ (f : Option (List String)) (d : String), parseYMD d = none →
      get_bloomberg_articles_by_date f d = []) ∧
    (∀ (hrefs : List String) (d : String) (ymd : ℕ × ℕ × ℕ), parseYMD d = some ymd →
      (get_bloomberg_articles_by_date (some hrefs) d).Nodup ∧
      ∀ u ∈ get_bloomberg_articles_by_date (some hrefs) d,
        strContains u newsPathMarker = true ∧ strContains u (formatYMD ymd) = true ∧
        (strStartsWith u bloombergBase = true ∨
          (u ∈ hrefs ∧ strStartsWith u "/" = false))) := by
  refine ⟨?_, ?_, ?_⟩
  · intro d
    unfold get_bloomberg_articles_by_date
    cases parseYMD d <;> rfl
  · intro f d hp
    unfold get_bloomberg_articles_by_date
    rw [hp]
  · intro hrefs d ymd hp
    unfold get_bloomberg_articles_by_date
    rw [hp]
    dsimp only
    have hspec := collect_links_spec (formatYMD ymd) hrefs hrefs [] (fun x hx => hx)
      List.nodup_nil (by intro u hu; cases hu)
    exact ⟨hspec.1, fun u hu => hspec.2 u hu⟩

/-- C10 witness: the amended theorem applied to a concrete homepage with one
root-relative matching href. -/
theorem c10_links_witness :
    strContains "https://www.bloomberg.co.jp/news/articles/2025-09-23/xyz" newsPathMarker
        = true ∧
    strContains "https://www.bloomberg.co.jp/news/articles/2025-09-23/xyz"
        (formatYMD (2025, 9, 23)) = true ∧
    (strStartsWith "https://www.bloomberg.co.jp/news/articles/2025-09-23/xyz" bloombergBase
        = true ∨
      ("https://www.bloomberg.co.jp/news/articles/2025-09-23/xyz"
          ∈ ["/news/articles/2025-09-23/xyz"] ∧
        strStartsWith "https://www.bloomberg.co.jp/news/articles/2025-09-23/xyz" "/"
          = false)) :=
  (c10_links_amended.2.2 ["/news/articles/2025-09-23/xyz"] "2025-09-23" (2025, 9, 23)
    (by decide)).2 "https://www.bloomberg.co.jp/news/articles/2025-09-23/xyz" (by decide)

end Scraper
